import Mathlib

/-!
Verification of the shiny-counter tracker (`main.py`).

The development shallowly embeds the persistence/state logic of the
program: the `PokemonTracker` widget state and its operations
(`increment_count`, `decrement_count`, `mark_obtained`,
`lock_as_obtained`, `get_data`), the regex-based recovery performed by
`get_data` (`re.search(r"Shiny (.*) obtained in (\d+)", text)`), the
tab-level (de)serialization (`PokemonTab.get_data`,
`App._create_and_add_tab`, `App.load_tab_from_file`,
`App.load_all_tabs_on_startup`), and the filename derivation
(`App._get_filename_for_tab`).

Modelling notes:
 - Python `int` is embedded as `Int`; `str(n)` as `intChars`
   (decimal digits, `-` sign for negatives).
 - Python `re`: `.` matches any character except a newline, `\d+` is a
   maximal nonempty run of digits (ASCII digits in this model), and
   `re.search` returns the leftmost match, greedy within that position.
 - Character classes (`\w`, `str.lower`, `str.strip`) are modelled over
   ASCII; the program's own string constants are all ASCII.
 - Button/entry enabled-state is part of the widget state: a disabled
   tkinter control does not fire its command, so user-level operations
   are guarded by those flags.
-/

/-- Decimal digit character for a value below 10, as produced by Python
`str`. -/
def digitChar : Nat → Char
  | 0 => '0'
  | 1 => '1'
  | 2 => '2'
  | 3 => '3'
  | 4 => '4'
  | 5 => '5'
  | 6 => '6'
  | 7 => '7'
  | 8 => '8'
  | 9 => '9'
  | _ => '*'

/-- Numeric value of a digit character. -/
def digVal (c : Char) : Nat := c.toNat - 48

/-- Fueled decimal rendering of a natural number (most significant digit
first); the fuel makes the definition structurally recursive so that it
reduces inside the kernel. -/
def natCharsF : Nat → Nat → List Char
  | 0, _ => []
  | fuel + 1, m =>
    if m < 10 then [digitChar m]
    else natCharsF fuel (m / 10) ++ [digitChar (m % 10)]

/-- Decimal digits of a natural number, as produced by Python `str`. -/
def natChars (m : Nat) : List Char := natCharsF (m + 1) m

/-- Decimal rendering of an integer, as produced by Python `str`. -/
def intChars (n : Int) : List Char :=
  if n < 0 then '-' :: natChars n.natAbs else natChars n.toNat

/-- Numeric value of a digit string, as computed by Python `int`. -/
def digsToNat (ds : List Char) : Nat :=
  ds.foldl (fun a c => a * 10 + digVal c) 0

/-- Boolean list-prefix test (used to match literal regex fragments). -/
def isPre : List Char → List Char → Bool
  | [], _ => true
  | _ :: _, [] => false
  | a :: as, b :: bs => a == b && isPre as bs

/-- Maximal leading run of digit characters: the text captured by a
greedy `\d+` (before the nonempty check). -/
def digPre : List Char → List Char
  | [] => []
  | c :: cs => if c.isDigit then c :: digPre cs else []

/-- Length of the longest prefix containing no newline: the maximal text
a greedy `.*` can consume. -/
def dotLen : List Char → Nat
  | [] => 0
  | c :: cs => if c = '\n' then 0 else dotLen cs + 1

/-- The literal fragment between the two capture groups of the regex. -/
def oChars : List Char := " obtained in ".data

/-- The literal fragment at the start of the regex. -/
def shinyChars : List Char := "Shiny ".data

/-- Attempt to match `" obtained in "` followed by a greedy `\d+` at the
start of `s`; on success, return the captured digits. -/
def matchTail (s : List Char) : Option (List Char) :=
  if isPre oChars s then
    let ds := digPre (s.drop oChars.length)
    if ds = [] then none else some ds
  else none

/-- Greedy search for the split point of `.*`: try group-1 length `k`,
then `k - 1`, and so on, returning the first (longest) split at which
the rest of the pattern matches. -/
def starLoop (rest : List Char) : Nat → Option (List Char × List Char)
  | 0 =>
    match matchTail (rest.drop 0) with
    | some ds => some (rest.take 0, ds)
    | none => none
  | k + 1 =>
    match matchTail (rest.drop (k + 1)) with
    | some ds => some (rest.take (k + 1), ds)
    | none => starLoop rest k

/-- Attempt to match the whole regex `Shiny (.*) obtained in (\d+)`
anchored at the start of `s`, greedily; on success return both captured
groups. -/
def matchHere (s : List Char) : Option (List Char × List Char) :=
  if isPre shinyChars s then
    starLoop (s.drop shinyChars.length) (dotLen (s.drop shinyChars.length))
  else none

/-- Model of `re.search(r"Shiny (.*) obtained in (\d+)", s)`: the match
at the leftmost possible start position wins, greedy within it. -/
def reSearch : List Char → Option (List Char × List Char)
  | [] => matchHere []
  | c :: t =>
    match matchHere (c :: t) with
    | some r => some r
    | none => reSearch t

/-- The record produced by `PokemonTracker.get_data` for one tracker;
also the shape of a fully-populated persisted tracker record. -/
structure TrackerData where
  name : String
  count : Int
  obtained : Bool
deriving DecidableEq, Repr

/-- State of one `PokemonTracker` widget: the three tkinter variables
plus the enabled/disabled state of its interactive controls (a disabled
tkinter control does not fire its command). -/
structure PokemonTracker where
  name_var : String
  count_var : Int
  obtained_var : Bool
  entry_readonly : Bool
  dec_disabled : Bool
  inc_disabled : Bool
  got_disabled : Bool
deriving DecidableEq, Repr

/-- `increment_count`: increases the counter by 1. -/
def PokemonTracker.increment_count (t : PokemonTracker) : PokemonTracker :=
  { t with count_var := t.count_var + 1 }

/-- `decrement_count`: decreases the counter by 1, but not below 0. -/
def PokemonTracker.decrement_count (t : PokemonTracker) : PokemonTracker :=
  if t.count_var > 0 then { t with count_var := t.count_var - 1 } else t

/-- `lock_as_obtained`: rewrite the label to the announcement string
built from the current name and count (`"try"` for a count of exactly 1,
`"tries"` otherwise), and disable every interactive control. -/
def PokemonTracker.lock_as_obtained (t : PokemonTracker) : PokemonTracker :=
  let name := t.name_var
  let count := t.count_var
  let sfx : String := if count = 1 then "try" else "tries"
  let final_text : String :=
    "Shiny " ++ name ++ " obtained in " ++ String.mk (intChars count) ++ " " ++ sfx ++ "!"
  { t with
      name_var := final_text
      entry_readonly := true
      dec_disabled := true
      inc_disabled := true
      got_disabled := true }

/-- `mark_obtained`: set the obtained flag, then lock. -/
def PokemonTracker.mark_obtained (t : PokemonTracker) : PokemonTracker :=
  ({ t with obtained_var := true }).lock_as_obtained

/-- Widget state immediately after `__init__` stores its variables and
creates its (enabled) controls, before the obtained check. -/
def PokemonTracker.base (name : String) (count : Int) (obtained : Bool) : PokemonTracker :=
  { name_var := name
    count_var := count
    obtained_var := obtained
    entry_readonly := false
    dec_disabled := false
    inc_disabled := false
    got_disabled := false }

/-- `PokemonTracker.__init__(name, count, obtained)`: store the fields
and, when already obtained, immediately `lock_as_obtained`. -/
def PokemonTracker.init (name : String) (count : Int) (obtained : Bool) : PokemonTracker :=
  let t := PokemonTracker.base name count obtained
  if obtained then t.lock_as_obtained else t

/-- `get_data`: for an obtained tracker, recover name and count by
regex-parsing the current label, falling back to `"Unknown"` and the
stored count when the parse fails; otherwise report the stored fields. -/
def PokemonTracker.get_data (t : PokemonTracker) : TrackerData :=
  if t.obtained_var then
    match reSearch t.name_var.data with
    | some (nm, ds) =>
      { name := String.mk nm, count := Int.ofNat (digsToNat ds), obtained := t.obtained_var }
    | none =>
      { name := "Unknown", count := t.count_var, obtained := t.obtained_var }
  else
    { name := t.name_var, count := t.count_var, obtained := t.obtained_var }

/-- User-level action on one tracker widget: a click on one of its
buttons, or an edit of the name entry. -/
inductive TrackerOp where
  | inc : TrackerOp
  | dec : TrackerOp
  | gotIt : TrackerOp
  | setName : String → TrackerOp
deriving DecidableEq, Repr

/-- Apply a user action: a disabled button does not fire its command and
a readonly entry rejects edits, so each action is guarded by the
corresponding widget flag. -/
def applyTrackerOp (t : PokemonTracker) (op : TrackerOp) : PokemonTracker :=
  match op with
  | .inc => if t.inc_disabled then t else t.increment_count
  | .dec => if t.dec_disabled then t else t.decrement_count
  | .gotIt => if t.got_disabled then t else t.mark_obtained
  | .setName s => if t.entry_readonly then t else { t with name_var := s }

/-- Replay a sequence of user actions on a tracker. -/
def replayTracker (ops : List TrackerOp) (t : PokemonTracker) : PokemonTracker :=
  ops.foldl applyTrackerOp t

/-- Tracker states reachable from construction by user actions. -/
def ReachableTracker (t : PokemonTracker) : Prop :=
  ∃ name count obtained ops, t = replayTracker ops (PokemonTracker.init name count obtained)

/-- Widget-state invariant: an obtained tracker has all of its
interactive controls disabled (established by `lock_as_obtained`). -/
def LockedInv (t : PokemonTracker) : Prop :=
  t.obtained_var = true →
    t.entry_readonly = true ∧ t.dec_disabled = true ∧ t.inc_disabled = true ∧
      t.got_disabled = true

/-- A bare increment/decrement operation (claim C5 replays these). -/
inductive CountOp where
  | inc : CountOp
  | dec : CountOp
deriving DecidableEq, Repr

/-- Replay a sequence of raw increment/decrement calls on a tracker. -/
def replayCount (ops : List CountOp) (t : PokemonTracker) : PokemonTracker :=
  ops.foldl
    (fun t op =>
      match op with
      | CountOp.inc => t.increment_count
      | CountOp.dec => t.decrement_count)
    t

/-- Modelled from the spec: the left fold of `+1` steps and `-1` steps
clamped at 0 after each step. -/
def clampFold (ops : List CountOp) (a : Int) : Int :=
  ops.foldl
    (fun x op =>
      match op with
      | CountOp.inc => x + 1
      | CountOp.dec => max (x - 1) 0)
    a

/-- A persisted tracker record as read from JSON: each field may be
absent (`data.get` with a default). -/
structure TrackerRecord where
  name : Option String
  count : Option Int
  obtained : Option Bool
deriving DecidableEq, Repr

/-- A persisted tab document as read from JSON: `tab_name` and
`trackers` may each be absent. -/
structure TabDoc where
  tab_name : Option String
  trackers : Option (List TrackerRecord)
deriving DecidableEq, Repr

/-- State of one `PokemonTab`: its name and its ordered tracker list. -/
structure PokemonTab where
  tab_name : String
  trackers : List PokemonTracker
deriving DecidableEq, Repr

/-- `PokemonTab.get_data`: collect the data of all trackers, in display
order, under the tab's name. -/
structure TabData where
  tab_name : String
  trackers : List TrackerData
deriving DecidableEq, Repr

/-- Serialization of a tab (`PokemonTab.get_data` in the source). -/
def PokemonTab.get_data (tab : PokemonTab) : TabData :=
  { tab_name := tab.tab_name
    trackers := tab.trackers.map PokemonTracker.get_data }

/-- `App._create_and_add_tab(name, data)`: build a tab and, when a
document with a `trackers` list is supplied, add one tracker per record
in order, defaulting missing fields (`"Error"`, `0`, `False`). -/
def createAndAddTab (name : String) (data : Option TabDoc) : PokemonTab :=
  { tab_name := name
    trackers :=
      match data with
      | none => []
      | some d =>
        (d.trackers.getD []).map fun r =>
          PokemonTracker.init (r.name.getD "Error") (r.count.getD 0) (r.obtained.getD false) }

/-- Document-to-tab step of `App.load_tab_from_file` (explicit
interactive load): the tab name defaults to `"Untitled"`. -/
def load_tab_from_file (doc : TabDoc) : PokemonTab :=
  createAndAddTab (doc.tab_name.getD "Untitled") (some doc)

/-- Document-to-tab step of `App.load_all_tabs_on_startup` (startup
directory scan): the tab name defaults to `"Error Loading"`. -/
def startup_load_tab (doc : TabDoc) : PokemonTab :=
  createAndAddTab (doc.tab_name.getD "Error Loading") (some doc)

/-- View a fully-populated document as a read JSON document. -/
def TabData.toDoc (d : TabData) : TabDoc :=
  { tab_name := some d.tab_name
    trackers := some (d.trackers.map fun r =>
      { name := some r.name, count := some r.count, obtained := some r.obtained }) }

/-- Round trip of claim C2: deserialize a fully-populated document via
the interactive-load path, then serialize the resulting tab. -/
def roundTrip (d : TabData) : TabData :=
  (load_tab_from_file d.toDoc).get_data

/-- Characters kept by `re.sub(r'[^\w\-_\. ]', '_', ...)` (`\w` over
ASCII). -/
def isKeptChar (c : Char) : Bool :=
  c.isAlphanum || c = '_' || c = '-' || c = '.' || c = ' '

/-- Characters stripped by Python `str.strip()` (ASCII whitespace). -/
def pyWhite (c : Char) : Bool :=
  c = ' ' || c = '\t' || c = '\n' || c = '\r' || c = '\x0b' || c = '\x0c'

/-- Python `str.strip()`: drop leading and trailing whitespace. -/
def stripChars (s : List Char) : List Char :=
  ((s.dropWhile pyWhite).reverse.dropWhile pyWhite).reverse

/-- `App._get_filename_for_tab`: substitute `_` for every character
outside `[\w\-_\. ]`, strip, lower-case, replace spaces by `_`, and wrap
in the save directory and `.json` extension. -/
def get_filename_for_tab (tab_name : String) : String :=
  let safe1 := tab_name.data.map fun c => if isKeptChar c then c else '_'
  let safe2 := stripChars safe1
  let safe3 := (safe2.map Char.toLower).map fun c => if c = ' ' then '_' else c
  "shiny_saves/" ++ String.mk safe3 ++ ".json"

/-- Modelled from the spec (claim C6 wording): replace every character
that is not alphanumeric, underscore, hyphen, dot, or space with an
underscore; trim leading/trailing whitespace; lower-case the result;
replace internal spaces with underscores. -/
def specStorageKey (name : String) : String :=
  let replaced := name.data.map fun c =>
    if c.isAlphanum || c = '_' || c = '-' || c = '.' || c = ' ' then c else '_'
  let trimmed := stripChars replaced
  let lowered := trimmed.map Char.toLower
  String.mk (lowered.map fun c => if c = ' ' then '_' else c)

theorem digit_ne_nl (c : Char) (h : c.isDigit = true) : c ≠ '\n' := by
  intro hc
  subst hc
  exact absurd h (by decide)

theorem natCharsF_congr (f : Nat) : ∀ g m, m < f → m < g → natCharsF f m = natCharsF g m := by
  induction f with
  | zero => intro g m hf _; omega
  | succ f ih =>
    intro g m hf hg
    cases g with
    | zero => omega
    | succ g =>
      by_cases h : m < 10
      · simp [natCharsF, h]
      · have hdiv : m / 10 < m := Nat.div_lt_self (by omega) (by omega)
        simp only [natCharsF, if_neg h]
        rw [ih g (m / 10) (by omega) (by omega)]

theorem digitChar_isDigit : ∀ k, k < 10 → (digitChar k).isDigit = true := by decide

theorem natChars_eq (m : Nat) :
    natChars m = if m < 10 then [digitChar m] else natChars (m / 10) ++ [digitChar (m % 10)] := by
  by_cases h : m < 10
  · simp [natChars, natCharsF, h]
  · have hdiv : m / 10 < m := Nat.div_lt_self (by omega) (by omega)
    have step : natCharsF (m + 1) m = natCharsF m (m / 10) ++ [digitChar (m % 10)] := by
      simp only [natCharsF, if_neg h]
    rw [if_neg h, natChars, natChars, step,
      natCharsF_congr m (m / 10 + 1) (m / 10) (by omega) (by omega)]

theorem natChars_ne_nil (m : Nat) : natChars m ≠ [] := by
  rw [natChars_eq]
  split <;> simp

theorem natChars_digits (m : Nat) : ∀ c ∈ natChars m, c.isDigit = true := by
  induction m using Nat.strong_induction_on with
  | _ m ih =>
    rw [natChars_eq]
    by_cases h : m < 10
    · rw [if_pos h]
      intro c hc
      rw [List.mem_singleton] at hc
      subst hc
      exact digitChar_isDigit m h
    · rw [if_neg h]
      intro c hc
      rcases List.mem_append.mp hc with h1 | h2
      · exact ih (m / 10) (Nat.div_lt_self (by omega) (by omega)) c h1
      · rw [List.mem_singleton] at h2
        subst h2
        exact digitChar_isDigit (m % 10) (Nat.mod_lt _ (by omega))

theorem digVal_digitChar : ∀ k, k < 10 → digVal (digitChar k) = k := by decide

theorem digsToNat_aux (m : Nat) :
    ∀ a, (natChars m).foldl (fun a c => a * 10 + digVal c) a =
      a * 10 ^ (natChars m).length + m := by
  induction m using Nat.strong_induction_on with
  | _ m ih =>
    intro a
    rw [natChars_eq]
    by_cases h : m < 10
    · rw [if_pos h]
      simp [List.foldl_cons, digVal_digitChar m h]
    · rw [if_neg h]
      rw [List.foldl_append, ih (m / 10) (Nat.div_lt_self (by omega) (by omega)) a]
      have h10 : m % 10 < 10 := Nat.mod_lt _ (by omega)
      simp only [List.foldl_cons, List.foldl_nil, List.length_append, List.length_singleton,
        digVal_digitChar _ h10, pow_succ]
      have := Nat.div_add_mod m 10
      ring_nf
      omega

theorem digsToNat_natChars (m : Nat) : digsToNat (natChars m) = m := by
  have := digsToNat_aux m 0
  simpa [digsToNat] using this

theorem isPre_iff (p : List Char) : ∀ s, isPre p s = true ↔ ∃ t, s = p ++ t := by
  induction p with
  | nil => intro s; simp [isPre]
  | cons a as ih =>
    intro s
    cases s with
    | nil => simp [isPre]
    | cons b bs =>
      simp only [isPre, Bool.and_eq_true, beq_iff_eq, ih bs, List.cons_append, List.cons.injEq]
      constructor
      · rintro ⟨rfl, t, rfl⟩
        exact ⟨t, rfl, rfl⟩
      · rintro ⟨t, rfl, rfl⟩
        exact ⟨rfl, t, rfl⟩

theorem isPre_app (p u : List Char) : isPre p (p ++ u) = true :=
  (isPre_iff p (p ++ u)).mpr ⟨u, rfl⟩

theorem isPre_length {p s : List Char} (h : isPre p s = true) : p.length ≤ s.length := by
  obtain ⟨t, rfl⟩ := (isPre_iff p s).mp h
  simp [List.length_append]

theorem isPre_get {p s : List Char} (h : isPre p s = true) (i : Nat) (hi : i < p.length) :
    s[i]? = p[i]? := by
  obtain ⟨t, rfl⟩ := (isPre_iff p s).mp h
  rw [List.getElem?_append, if_pos hi]

theorem digPre_append_digits (D : List Char) (u : List Char)
    (hD : ∀ c ∈ D, c.isDigit = true) : digPre (D ++ u) = D ++ digPre u := by
  induction D with
  | nil => simp
  | cons d D' ih =>
    simp only [List.cons_append, digPre, if_pos (hD d (List.mem_cons_self d D')),
      List.append_eq]
    rw [ih fun c hc => hD c (List.mem_cons_of_mem d hc)]

theorem dotLen_eq_length (s : List Char) (h : ∀ c ∈ s, c ≠ '\n') : dotLen s = s.length := by
  induction s with
  | nil => rfl
  | cons c cs ih =>
    simp only [dotLen, if_neg (h c (List.mem_cons_self c cs)), List.length_cons]
    rw [ih fun x hx => h x (List.mem_cons_of_mem c hx)]

theorem oChars_no_digit : ∀ c ∈ oChars, c.isDigit = false := by decide

theorem oChars_no_nl : ∀ c ∈ oChars, c ≠ '\n' := by decide

theorem matchTail_start (D u : List Char) (hne : D ≠ [])
    (hD : ∀ c ∈ D, c.isDigit = true) (hu : digPre u = []) :
    matchTail (oChars ++ (D ++ u)) = some D := by
  unfold matchTail
  rw [if_pos (isPre_app oChars (D ++ u))]
  simp only [List.drop_left, digPre_append_digits D u hD, hu, List.append_nil]
  rw [if_neg hne]

theorem matchTail_none_inner (D u : List Char) (hne : D ≠ [])
    (hD : ∀ c ∈ D, c.isDigit = true) (hu1 : u.length < oChars.length)
    (i : Nat) (hi : 1 ≤ i) :
    matchTail ((oChars ++ (D ++ u)).drop i) = none := by
  by_cases hp : isPre oChars ((oChars ++ (D ++ u)).drop i) = true
  · exfalso
    cases D with
    | nil => exact hne rfl
    | cons d0 D' =>
      have hd0 : d0.isDigit = true := hD d0 (List.mem_cons_self d0 D')
      have hS13 : (oChars ++ (d0 :: D' ++ u))[oChars.length]? = some d0 := by
        rw [List.getElem?_append_right (le_refl oChars.length), Nat.sub_self]
        simp
      rcases Nat.lt_or_ge i oChars.length with hcase | hcase
      · -- the copied oChars would have to contain the first digit
        have hj : oChars.length - i < oChars.length := by omega
        have h1 := isPre_get hp (oChars.length - i) hj
        rw [List.getElem?_drop] at h1
        have hidx : i + (oChars.length - i) = oChars.length := by omega
        rw [hidx, hS13] at h1
        have hmem : d0 ∈ oChars := List.getElem?_mem h1.symm
        rw [oChars_no_digit d0 hmem] at hd0
        exact Bool.noConfusion hd0
      · rcases Nat.lt_or_ge i (oChars.length + (d0 :: D').length) with hcase2 | hcase2
        · -- the first char of the copied oChars would have to be a digit
          have h0 := isPre_get hp 0 (by decide)
          rw [List.getElem?_drop, Nat.add_zero] at h0
          have hsplit : (oChars ++ (d0 :: D' ++ u))[i]? = (d0 :: D' ++ u)[i - oChars.length]? :=
            List.getElem?_append_right hcase
          have hlt : i - oChars.length < (d0 :: D').length := by omega
          have hsplit2 : (d0 :: D' ++ u)[i - oChars.length]? =
              (d0 :: D')[i - oChars.length]? := by
            rw [show d0 :: D' ++ u = (d0 :: D') ++ u from rfl, List.getElem?_append, if_pos hlt]
          cases hval : (d0 :: D')[i - oChars.length]? with
          | none =>
            rw [List.getElem?_eq_getElem hlt] at hval
            exact Option.noConfusion hval
          | some c =>
            have hdig : c.isDigit = true := hD c (List.getElem?_mem hval)
            rw [hsplit, hsplit2, hval] at h0
            have hsp : oChars[0]? = some ' ' := by decide
            rw [hsp] at h0
            have hc : c = ' ' := Option.some.inj h0
            rw [hc] at hdig
            exact Bool.noConfusion hdig
        · -- past the digits there is not enough room left for oChars
          have hlen := isPre_length hp
          rw [List.length_drop, List.length_append, List.length_append] at hlen
          omega
  · unfold matchTail
    rw [if_neg hp]

theorem starLoop_found (rest : List Char) (k0 : Nat) (ds : List Char)
    (h : matchTail (rest.drop k0) = some ds)
    (habove : ∀ j, k0 < j → matchTail (rest.drop j) = none) :
    ∀ k, k0 ≤ k → starLoop rest k = some (rest.take k0, ds) := by
  intro k
  induction k with
  | zero =>
    intro hk
    have hk0 : k0 = 0 := Nat.le_zero.mp hk
    subst hk0
    simp only [starLoop]
    rw [h]
  | succ k ih =>
    intro hk
    rcases Nat.lt_or_ge k k0 with hlt | hge
    · have : k0 = k + 1 := by omega
      subst this
      simp only [starLoop]
      rw [h]
    · simp only [starLoop]
      rw [habove (k + 1) (by omega)]
      exact ih hge

theorem reSearch_of_matchHere (s : List Char) (r : List Char × List Char)
    (h : matchHere s = some r) : reSearch s = some r := by
  cases s with
  | nil => rw [reSearch, h]
  | cons c t =>
    rw [reSearch, h]

theorem reSearch_announce (nm D u : List Char)
    (hnm : ∀ c ∈ nm, c ≠ '\n') (hne : D ≠ []) (hD : ∀ c ∈ D, c.isDigit = true)
    (hu1 : u.length < oChars.length) (hu2 : ∀ c ∈ u, c ≠ '\n') (hu3 : digPre u = []) :
    reSearch (shinyChars ++ (nm ++ (oChars ++ (D ++ u)))) = some (nm, D) := by
  apply reSearch_of_matchHere
  have hdot : dotLen (nm ++ (oChars ++ (D ++ u))) = (nm ++ (oChars ++ (D ++ u))).length := by
    apply dotLen_eq_length
    intro c hc
    rcases List.mem_append.mp hc with h1 | h1
    · exact hnm c h1
    rcases List.mem_append.mp h1 with h2 | h2
    · exact oChars_no_nl c h2
    rcases List.mem_append.mp h2 with h3 | h3
    · exact digit_ne_nl c (hD c h3)
    · exact hu2 c h3
  have hfound : matchTail ((nm ++ (oChars ++ (D ++ u))).drop nm.length) = some D := by
    rw [List.drop_left]
    exact matchTail_start D u hne hD hu3
  have habove : ∀ j, nm.length < j → matchTail ((nm ++ (oChars ++ (D ++ u))).drop j) = none := by
    intro j hj
    obtain ⟨i, rfl⟩ : ∃ i, j = nm.length + i := ⟨j - nm.length, by omega⟩
    rw [List.drop_append]
    exact matchTail_none_inner D u hne hD hu1 i (by omega)
  unfold matchHere
  rw [if_pos (isPre_app shinyChars _), List.drop_left, hdot,
    starLoop_found _ nm.length D hfound habove _ (by simp [List.length_append]),
    List.take_left]

theorem strMk_data (s : String) : String.mk s.data = s := rfl

theorem lock_obtained_var (t : PokemonTracker) :
    (t.lock_as_obtained).obtained_var = t.obtained_var := rfl

theorem lock_count_var (t : PokemonTracker) :
    (t.lock_as_obtained).count_var = t.count_var := rfl

theorem lock_name_data (t : PokemonTracker) :
    (t.lock_as_obtained).name_var.data =
      shinyChars ++ (t.name_var.data ++ (oChars ++ (intChars t.count_var ++
        (" ".data ++ ((if t.count_var = 1 then ("try" : String) else "tries").data ++
          "!".data))))) := by
  simp [PokemonTracker.lock_as_obtained, String.data_append, shinyChars, oChars,
    List.append_assoc]

theorem lock_get_data (t : PokemonTracker) (hob : t.obtained_var = true)
    (h0 : 0 ≤ t.count_var) (hnm : '\n' ∉ t.name_var.data) :
    (t.lock_as_obtained).get_data = ⟨t.name_var, t.count_var, true⟩ := by
  have hnm' : ∀ c ∈ t.name_var.data, c ≠ '\n' := fun c hc he => hnm (he ▸ hc)
  have hic : intChars t.count_var = natChars t.count_var.toNat := by
    unfold intChars
    rw [if_neg (by omega)]
  have hget : ∀ u : List Char, u.length < oChars.length → (∀ c ∈ u, c ≠ '\n') →
      digPre u = [] →
      reSearch (shinyChars ++ (t.name_var.data ++ (oChars ++ (intChars t.count_var ++ u)))) =
        some (t.name_var.data, natChars t.count_var.toNat) := by
    intro u h1 h2 h3
    rw [hic]
    exact reSearch_announce _ _ _ hnm' (natChars_ne_nil _) (natChars_digits _) h1 h2 h3
  have hre : reSearch (t.lock_as_obtained).name_var.data =
      some (t.name_var.data, natChars t.count_var.toNat) := by
    rw [lock_name_data t]
    by_cases h1 : t.count_var = 1
    · rw [if_pos h1]
      exact hget _ (by decide) (by decide) (by decide)
    · rw [if_neg h1]
      exact hget _ (by decide) (by decide) (by decide)
  have hob' : (t.lock_as_obtained).obtained_var = true := by
    rw [lock_obtained_var, hob]
  simp only [PokemonTracker.get_data, hob', if_true, hre, lock_count_var]
  rw [strMk_data, digsToNat_natChars]
  have : (Int.ofNat t.count_var.toNat) = t.count_var := Int.toNat_of_nonneg h0
  rw [this]

theorem init_get_data (name : String) (c : Int) (ob : Bool)
    (h0 : 0 ≤ c) (hnm : '\n' ∉ name.data) :
    (PokemonTracker.init name c ob).get_data = ⟨name, c, ob⟩ := by
  cases ob with
  | false =>
    simp [PokemonTracker.init, PokemonTracker.base, PokemonTracker.get_data]
  | true =>
    show ((PokemonTracker.base name c true).lock_as_obtained).get_data = _
    exact lock_get_data (PokemonTracker.base name c true) rfl h0 hnm

theorem lockedInv_init (name : String) (c : Int) (ob : Bool) :
    LockedInv (PokemonTracker.init name c ob) := by
  cases ob with
  | false =>
    intro h
    exact absurd h (by simp [PokemonTracker.init, PokemonTracker.base])
  | true =>
    intro _
    exact ⟨rfl, rfl, rfl, rfl⟩

theorem lockedInv_step (t : PokemonTracker) (op : TrackerOp) (h : LockedInv t) :
    LockedInv (applyTrackerOp t op) := by
  cases op with
  | inc =>
    simp only [applyTrackerOp]
    split
    · exact h
    · intro hob
      exact h hob
  | dec =>
    simp only [applyTrackerOp]
    split
    · exact h
    · unfold PokemonTracker.decrement_count
      split
      · intro hob
        exact h hob
      · exact h
  | gotIt =>
    simp only [applyTrackerOp]
    split
    · exact h
    · intro _
      exact ⟨rfl, rfl, rfl, rfl⟩
  | setName s =>
    simp only [applyTrackerOp]
    split
    · exact h
    · intro hob
      exact h hob

theorem lockedInv_replay (ops : List TrackerOp) :
    ∀ t, LockedInv t → LockedInv (replayTracker ops t) := by
  induction ops with
  | nil => intro t h; exact h
  | cons op ops ih =>
    intro t h
    exact ih _ (lockedInv_step t op h)

theorem reachable_lockedInv (t : PokemonTracker) (hr : ReachableTracker t) : LockedInv t := by
  obtain ⟨nm, c, ob, ops, rfl⟩ := hr
  exact lockedInv_replay ops _ (lockedInv_init nm c ob)

theorem replayCount_spec (ops : List CountOp) :
    ∀ t : PokemonTracker, 0 ≤ t.count_var →
      (replayCount ops t).count_var = clampFold ops t.count_var ∧
        0 ≤ (replayCount ops t).count_var := by
  induction ops with
  | nil => intro t h; exact ⟨rfl, h⟩
  | cons op ops ih =>
    intro t h
    cases op with
    | inc =>
      have h1 : 0 ≤ (t.increment_count).count_var := by
        show 0 ≤ t.count_var + 1
        omega
      have hrec := ih t.increment_count h1
      exact ⟨hrec.1, hrec.2⟩
    | dec =>
      have key : (t.decrement_count).count_var = max (t.count_var - 1) 0 := by
        unfold PokemonTracker.decrement_count
        by_cases hc : t.count_var > 0
        · rw [if_pos hc]
          show t.count_var - 1 = max (t.count_var - 1) 0
          omega
        · rw [if_neg hc]
          omega
      have h1 : 0 ≤ (t.decrement_count).count_var := by
        rw [key]
        omega
      have hrec := ih t.decrement_count h1
      refine ⟨?_, hrec.2⟩
      show (replayCount ops t.decrement_count).count_var = clampFold ops (max (t.count_var - 1) 0)
      rw [hrec.1, key]

theorem map_get_data_id (l : List TrackerData)
    (h : ∀ r ∈ l, 0 ≤ r.count ∧ '\n' ∉ r.name.data) :
    (l.map fun r => (PokemonTracker.init r.name r.count r.obtained).get_data) = l := by
  induction l with
  | nil => rfl
  | cons r l ih =>
    rw [List.map_cons,
      init_get_data r.name r.count r.obtained (h r (List.mem_cons_self r l)).1
        (h r (List.mem_cons_self r l)).2,
      ih fun x hx => h x (List.mem_cons_of_mem r hx)]

theorem roundTrip_eq (d : TabData)
    (h : ∀ r ∈ d.trackers, 0 ≤ r.count ∧ '\n' ∉ r.name.data) :
    roundTrip d = d := by
  cases d with
  | mk tn trs =>
    have step : roundTrip ⟨tn, trs⟩ =
        ⟨tn, trs.map fun r => (PokemonTracker.init r.name r.count r.obtained).get_data⟩ := by
      simp [roundTrip, load_tab_from_file, createAndAddTab, TabData.toDoc,
        PokemonTab.get_data, List.map_map, Function.comp]
    rw [step, map_get_data_id trs h]

/-- C1: for every locked tracker, `get_data` returns the fields recovered
by parsing the current label with `Shiny (.*) obtained in (\d+)` (name
and numeric count from the two capture groups) and, when the parse
fails, falls back to name `"Unknown"` and the currently stored count;
`obtained` is reported `true` in both cases. -/
theorem get_data_locked_parses (t : PokemonTracker) (hob : t.obtained_var = true) :
    (∃ nm ds, reSearch t.name_var.data = some (nm, ds) ∧
        t.get_data = ⟨String.mk nm, Int.ofNat (digsToNat ds), true⟩) ∨
      (reSearch t.name_var.data = none ∧
        t.get_data = ⟨"Unknown", t.count_var, true⟩) := by
  unfold PokemonTracker.get_data
  rw [hob]
  cases hcase : reSearch t.name_var.data with
  | none =>
    right
    exact ⟨rfl, by simp [hcase]⟩
  | some r =>
    obtain ⟨nm, ds⟩ := r
    left
    exact ⟨nm, ds, rfl, by simp [hcase]⟩

/-- Witness for C1 at the locked tracker built from
`("Foo", 2, obtained)`. -/
theorem get_data_locked_parses_witness :
    (PokemonTracker.init "Foo" 2 true).obtained_var = true ∧
      ((∃ nm ds,
          reSearch (PokemonTracker.init "Foo" 2 true).name_var.data = some (nm, ds) ∧
            (PokemonTracker.init "Foo" 2 true).get_data =
              ⟨String.mk nm, Int.ofNat (digsToNat ds), true⟩) ∨
        (reSearch (PokemonTracker.init "Foo" 2 true).name_var.data = none ∧
          (PokemonTracker.init "Foo" 2 true).get_data =
            ⟨"Unknown", (PokemonTracker.init "Foo" 2 true).count_var, true⟩)) :=
  ⟨by decide, get_data_locked_parses _ (by decide)⟩

/-- C2 counterexample: the document with the single obtained tracker
named `"a\nb"` (count 0) is well formed and its name does not match the
lock-announcement pattern, yet the round trip does not return it: the
newline makes the announcement unparsable (`.` does not match a
newline), so serialization yields `"Unknown"`. -/
theorem roundtrip_pattern_cex :
    reSearch "a\nb".data = none ∧
      roundTrip ⟨"T", [⟨"a\nb", 0, true⟩]⟩ = ⟨"T", [⟨"Unknown", 0, true⟩]⟩ ∧
      roundTrip ⟨"T", [⟨"a\nb", 0, true⟩]⟩ ≠ ⟨"T", [⟨"a\nb", 0, true⟩]⟩ := by
  decide

/-- C2 (amended): for every well-formed document whose tracker counts
are nonnegative and whose tracker names contain no newline character,
serializing the collection obtained by deserializing the document yields
the document back. -/
theorem roundtrip_newline_free (d : TabData)
    (h : ∀ r ∈ d.trackers, 0 ≤ r.count ∧ '\n' ∉ r.name.data) :
    roundTrip d = d :=
  roundTrip_eq d h

/-- Witness for C2 (amended) at a two-tracker document. -/
theorem roundtrip_newline_free_witness :
    (∀ r ∈ (⟨"Tab", [⟨"Foo", 3, true⟩, ⟨"Bar", 0, false⟩]⟩ : TabData).trackers,
        0 ≤ r.count ∧ '\n' ∉ r.name.data) ∧
      roundTrip ⟨"Tab", [⟨"Foo", 3, true⟩, ⟨"Bar", 0, false⟩]⟩ =
        ⟨"Tab", [⟨"Foo", 3, true⟩, ⟨"Bar", 0, false⟩]⟩ :=
  ⟨by decide, roundtrip_newline_free _ (by decide)⟩

/-- C3 counterexample: the unlocked tracker with label `"a\nb"` and
attempts 5 does not round-trip through lock-then-serialize: the
announcement string contains a newline, the regex cannot match it, and
serialization reports `"Unknown"` instead of the original label. -/
theorem lock_serialize_newline_cex :
    (PokemonTracker.init "a\nb" 5 false).obtained_var = false ∧
      ((PokemonTracker.init "a\nb" 5 false).mark_obtained).get_data =
        ⟨"Unknown", 5, true⟩ ∧
      ((PokemonTracker.init "a\nb" 5 false).mark_obtained).get_data ≠
        ⟨"a\nb", 5, true⟩ := by
  decide

/-- C3 (amended): for every unlocked tracker whose attempts value is
nonnegative and whose label contains no newline character, locking and
then serializing recovers exactly the original label and count. -/
theorem lock_serialize_recovers (t : PokemonTracker) (_hun : t.obtained_var = false)
    (h0 : 0 ≤ t.count_var) (hnm : '\n' ∉ t.name_var.data) :
    (t.mark_obtained).get_data = ⟨t.name_var, t.count_var, true⟩ := by
  show (({ t with obtained_var := true }).lock_as_obtained).get_data = _
  exact lock_get_data _ rfl h0 hnm

/-- Witness for C3 (amended) at the unlocked tracker
`("Pikachu", 4, not obtained)`. -/
theorem lock_serialize_recovers_witness :
    ((PokemonTracker.init "Pikachu" 4 false).obtained_var = false ∧
        0 ≤ (PokemonTracker.init "Pikachu" 4 false).count_var ∧
        '\n' ∉ (PokemonTracker.init "Pikachu" 4 false).name_var.data) ∧
      ((PokemonTracker.init "Pikachu" 4 false).mark_obtained).get_data =
        ⟨(PokemonTracker.init "Pikachu" 4 false).name_var,
          (PokemonTracker.init "Pikachu" 4 false).count_var, true⟩ :=
  ⟨⟨by decide, by decide, by decide⟩,
    lock_serialize_recovers _ (by decide) (by decide) (by decide)⟩

/-- C4: in every reachable widget state, once a tracker is obtained no
user action (increment click, decrement click, got-it click, or editing
the name entry) changes it: locking disabled all controls, so the state
is terminal. -/
theorem locked_tracker_immutable (t : PokemonTracker) (hr : ReachableTracker t)
    (hob : t.obtained_var = true) (op : TrackerOp) : applyTrackerOp t op = t := by
  obtain ⟨h1, h2, h3, h4⟩ := reachable_lockedInv t hr hob
  cases op with
  | inc => simp [applyTrackerOp, h3]
  | dec => simp [applyTrackerOp, h2]
  | gotIt => simp [applyTrackerOp, h4]
  | setName s => simp [applyTrackerOp, h1]

/-- Witness for C4: an increment click on a locked tracker is a no-op. -/
theorem locked_tracker_immutable_witness :
    applyTrackerOp (PokemonTracker.init "Pikachu" 2 true) TrackerOp.inc =
      PokemonTracker.init "Pikachu" 2 true :=
  locked_tracker_immutable _ ⟨"Pikachu", 2, true, [], rfl⟩ (by decide) TrackerOp.inc

/-- C5: starting from a nonnegative count, replaying any sequence of
increment/decrement operations yields exactly the left fold of `+1`
steps and `-1` steps clamped at 0 after each step; the count stays
nonnegative, and decrementing at 0 leaves 0. -/
theorem count_replay_clamped (t : PokemonTracker) (ops : List CountOp)
    (h : 0 ≤ t.count_var) :
    (replayCount ops t).count_var = clampFold ops t.count_var ∧
      0 ≤ (replayCount ops t).count_var ∧
      (∀ u : PokemonTracker, u.count_var = 0 → (u.decrement_count).count_var = 0) := by
  refine ⟨(replayCount_spec ops t h).1, (replayCount_spec ops t h).2, ?_⟩
  intro u hu
  unfold PokemonTracker.decrement_count
  rw [if_neg (by omega)]
  exact hu

/-- Witness for C5 at count 0 with the sequence dec, inc, inc, dec. -/
theorem count_replay_clamped_witness :
    0 ≤ (PokemonTracker.init "A" 0 false).count_var ∧
      ((replayCount [CountOp.dec, CountOp.inc, CountOp.inc, CountOp.dec]
            (PokemonTracker.init "A" 0 false)).count_var =
          clampFold [CountOp.dec, CountOp.inc, CountOp.inc, CountOp.dec]
            (PokemonTracker.init "A" 0 false).count_var ∧
        0 ≤ (replayCount [CountOp.dec, CountOp.inc, CountOp.inc, CountOp.dec]
            (PokemonTracker.init "A" 0 false)).count_var ∧
        (∀ u : PokemonTracker, u.count_var = 0 → (u.decrement_count).count_var = 0)) :=
  ⟨by decide, count_replay_clamped _ _ (by decide)⟩

/-- C6: the filename derivation performs exactly the documented pipeline
(replace every character outside alphanumeric/underscore/hyphen/dot/
space by an underscore, trim, lower-case, replace spaces by
underscores), and the keys derived from `"Pokemon Glazed!"` and
`"pokemon_glazed!"` collide. -/
theorem filename_spec_and_collision :
    (∀ s : String,
        get_filename_for_tab s = "shiny_saves/" ++ specStorageKey s ++ ".json") ∧
      get_filename_for_tab "Pokemon Glazed!" = get_filename_for_tab "pokemon_glazed!" := by
  constructor
  · intro s
    rfl
  · decide

/-- C7: marking an unlocked tracker as obtained sets its label to
`"Shiny <label> obtained in <count> <unit>!"` with unit `"try"` exactly
when the count is 1 and `"tries"` otherwise, and sets the obtained flag. -/
theorem lock_label_announcement (t : PokemonTracker) (_hun : t.obtained_var = false) :
    (t.mark_obtained).name_var =
        "Shiny " ++ t.name_var ++ " obtained in " ++ String.mk (intChars t.count_var) ++
          " " ++ (if t.count_var = 1 then ("try" : String) else "tries") ++ "!" ∧
      (t.mark_obtained).obtained_var = true :=
  ⟨rfl, rfl⟩

/-- Witness for C7 at an unlocked tracker with count 1 (singular unit). -/
theorem lock_label_announcement_witness :
    (PokemonTracker.init "Mew" 1 false).obtained_var = false ∧
      (((PokemonTracker.init "Mew" 1 false).mark_obtained).name_var =
          "Shiny " ++ (PokemonTracker.init "Mew" 1 false).name_var ++ " obtained in " ++
            String.mk (intChars (PokemonTracker.init "Mew" 1 false).count_var) ++ " " ++
            (if (PokemonTracker.init "Mew" 1 false).count_var = 1 then ("try" : String)
              else "tries") ++ "!" ∧
        ((PokemonTracker.init "Mew" 1 false).mark_obtained).obtained_var = true) :=
  ⟨by decide, lock_label_announcement _ (by decide)⟩

/-- C8: a tracker record with `obtained = true` is constructed and then
immediately put through the same lock transition as the interactive
got-it action; deserializing the single-record document
`(obtained true, count 3, name "Foo")` yields exactly one locked tracker
labelled `"Shiny Foo obtained in 3 tries!"` with count 3 and every
control disabled. -/
theorem deserialize_obtained_locks :
    (∀ (name : String) (count : Int),
        PokemonTracker.init name count true =
          (PokemonTracker.init name count false).mark_obtained) ∧
      load_tab_from_file ⟨none, some [⟨some "Foo", some 3, some true⟩]⟩ =
        ⟨"Untitled",
          [⟨"Shiny Foo obtained in 3 tries!", 3, true, true, true, true, true⟩]⟩ := by
  refine ⟨fun name count => rfl, ?_⟩
  decide

/-- C9: deserialization defaults a missing `tab_name` to `"Untitled"`
and a missing `trackers` list to empty, defaults each record's missing
fields to `"Error"`, 0 and `false`, and creates trackers in input order;
deserializing the empty document yields the collection `"Untitled"` with
no trackers. -/
theorem deserialize_defaults :
    (∀ doc : TabDoc,
        (load_tab_from_file doc).tab_name = doc.tab_name.getD "Untitled" ∧
          (load_tab_from_file doc).trackers =
            (doc.trackers.getD []).map fun r =>
              PokemonTracker.init (r.name.getD "Error") (r.count.getD 0)
                (r.obtained.getD false)) ∧
      load_tab_from_file ⟨none, none⟩ = ⟨"Untitled", []⟩ :=
  ⟨fun _ => ⟨rfl, rfl⟩, rfl⟩

/-- C10: a document without a `tab_name` key loaded by the startup
directory scan produces a collection named `"Error Loading"`, unlike the
explicit interactive load, which names it `"Untitled"`. -/
theorem startup_missing_tab_name (doc : TabDoc) (h : doc.tab_name = none) :
    (startup_load_tab doc).tab_name = "Error Loading" ∧
      (load_tab_from_file doc).tab_name = "Untitled" ∧
      "Error Loading" ≠ "Untitled" := by
  refine ⟨?_, ?_, by decide⟩
  · show doc.tab_name.getD "Error Loading" = "Error Loading"
    rw [h]
    rfl
  · show doc.tab_name.getD "Untitled" = "Untitled"
    rw [h]
    rfl

/-- Witness for C10 at the empty document. -/
theorem startup_missing_tab_name_witness :
    (TabDoc.mk none none).tab_name = none ∧
      ((startup_load_tab ⟨none, none⟩).tab_name = "Error Loading" ∧
        (load_tab_from_file ⟨none, none⟩).tab_name = "Untitled" ∧
        "Error Loading" ≠ "Untitled") :=
  ⟨rfl, startup_missing_tab_name _ rfl⟩
